import Mathlib

/-!
Verification of the typed XRP JSON-RPC client (`src/lib.rs`).

The Rust source is shallowly embedded: Rust strings (`&str`) are lists of
Unicode scalar values (`List Char`), with `str::len` modelled as the UTF-8
byte length; `bigdecimal::BigDecimal` is a pair of an unscaled integer and a
scale, with its `Display`/`FromStr` implementations translated to
`printBigDec`/`parseBigDec`; JSON values are a simple inductive tree whose
numbers are restricted to exact integers (serde_json's lossy f64 path for
non-integer number literals is out of scope); serde's derived deserializers
are translated decoders `Json → Option _`, with `#[serde(untagged)]`
enumerations trying their variants in declaration order and
`#[serde(flatten)]` delegating the fields not named by the outer struct.
-/

set_option maxHeartbeats 1000000

abbrev Chars := List Char

/-- UTF-8 byte width of one Unicode scalar value, as in Rust's `char::len_utf8`. -/
def charUtf8Size (c : Char) : Nat :=
  if c.val < 128 then 1
  else if c.val < 2048 then 2
  else if c.val < 65536 then 3
  else 4

/-- Rust `str::len`: the UTF-8 byte length of a string. -/
def utf8Len (s : Chars) : Nat := (s.map charUtf8Size).sum

/-- Little-endian base-10 digits of a natural number (fuel-based so that it
reduces definitionally). -/
def natDigitsAux : Nat → Nat → List Nat
  | 0, _ => []
  | _ + 1, 0 => []
  | fuel + 1, n + 1 => ((n + 1) % 10) :: natDigitsAux fuel ((n + 1) / 10)

def natDigits (n : Nat) : List Nat := natDigitsAux n n

/-- Big-endian base-10 digit list of a natural number, `[0]` for zero:
the digit sequence of num-bigint's `to_str_radix(10)`. -/
def natDigitsBE (n : Nat) : List Nat :=
  if n = 0 then [0] else (natDigits n).reverse

/-- num-bigint's `to_str_radix(10)` on a magnitude. -/
def natToChars (n : Nat) : Chars := (natDigitsBE n).map Nat.digitChar

/-- Numeric value of an ASCII decimal digit. -/
def charDigit (c : Char) : Option Nat :=
  if 48 ≤ c.toNat ∧ c.toNat ≤ 57 then some (c.toNat - 48) else none

/-- Fail-fast traversal of a list under an option-valued function. -/
def mapMOpt {α β : Type} (f : α → Option β) : List α → Option (List β)
  | [] => some []
  | x :: xs =>
    match f x with
    | some y =>
      match mapMOpt f xs with
      | some ys => some (y :: ys)
      | none => none
    | none => none

/-- Value of a nonempty big-endian decimal digit string (the digit-only core of
num-bigint's `from_str_radix(s, 10)`). -/
def parseDigitsNat (s : Chars) : Option Nat :=
  match mapMOpt charDigit s with
  | none => none
  | some [] => none
  | some (d :: ds) => some (Nat.ofDigits 10 ((d :: ds).reverse))

/-- num-bigint's `from_str_radix(s, 10)`: an optional single leading sign
followed by at least one decimal digit. -/
def parseBigIntChars (s : Chars) : Option Int :=
  match s with
  | [] => none
  | c :: rest =>
    if c = '+' then (parseDigitsNat rest).map (fun n => (n : Int))
    else if c = '-' then (parseDigitsNat rest).map (fun n => -(n : Int))
    else (parseDigitsNat s).map (fun n => (n : Int))

/-- Split a list at the first character satisfying `p` (Rust's `str::find`
followed by slicing); `none` when no character matches. -/
def splitAtFirst (p : Char → Bool) : Chars → Option (Chars × Chars)
  | [] => none
  | c :: cs =>
    if p c then some ([], cs)
    else
      match splitAtFirst p cs with
      | some ab => some (c :: ab.1, ab.2)
      | none => none

def expChar (c : Char) : Bool := c == 'e' || c == 'E'

def dotChar (c : Char) : Bool := c == '.'

/-- Rust's `i64::from_str`: sign, digits, and a range check. -/
def parseI64 (s : Chars) : Option Int :=
  match parseBigIntChars s with
  | some v => if -(2 ^ 63) ≤ v ∧ v ≤ 2 ^ 63 - 1 then some v else none
  | none => none

/-- `bigdecimal::BigDecimal`: an arbitrary-precision unscaled integer together
with a decimal scale (the represented value is `intVal * 10 ^ (-scale)`). -/
structure BigDec where
  intVal : Int
  scale : Int
deriving DecidableEq

/-- The rational number represented by a `BigDec`. -/
def toRat (d : BigDec) : ℚ := (d.intVal : ℚ) * (10 : ℚ) ^ (-d.scale)

/-- The body (no exponent split yet) of bigdecimal's `from_str_radix`:
an optional single `.` splits the digits, the fractional length becomes the
decimal offset, and the digit string (with its sign) is parsed as a bigint. -/
def parseBase (base : Chars) (e : Int) : Option BigDec :=
  if base = [] then none
  else
    match splitAtFirst dotChar base with
    | some lt =>
      match parseBigIntChars (lt.1 ++ lt.2) with
      | some v => some ⟨v, (lt.2.length : Int) - e⟩
      | none => none
    | none =>
      match parseBigIntChars base with
      | some v => some ⟨v, 0 - e⟩
      | none => none

/-- bigdecimal's `FromStr`: split at the first `e`/`E` into base and exponent,
parse the exponent as an `i64`, then parse the base part. -/
def parseBigDec (s : Chars) : Option BigDec :=
  match splitAtFirst expChar s with
  | some be =>
    match parseI64 be.2 with
    | some e => parseBase be.1 e
    | none => none
  | none => parseBase s 0

/-- Body of bigdecimal's `Display`: the absolute value's digit string with the
decimal point inserted according to the scale. -/
def printBody (n : Nat) (scale : Int) : Chars :=
  if ((natToChars n).length : Int) ≤ scale then
    '0' :: '.' :: (List.replicate (scale.toNat - (natToChars n).length) '0' ++ natToChars n)
  else if scale < 0 then
    natToChars n ++ List.replicate (-scale).toNat '0'
  else if (natToChars n).drop ((natToChars n).length - scale.toNat) = [] then
    (natToChars n).take ((natToChars n).length - scale.toNat)
  else
    (natToChars n).take ((natToChars n).length - scale.toNat) ++
      '.' :: (natToChars n).drop ((natToChars n).length - scale.toNat)

/-- bigdecimal's `Display` (which is also its serde serialization, via
`collect_str`): sign plus `printBody`. -/
def printBigDec (d : BigDec) : Chars :=
  if d.intVal < 0 then '-' :: printBody d.intVal.natAbs d.scale
  else printBody d.intVal.natAbs d.scale

/-- serde_json::Value, with numbers restricted to exact integers (the f64 path
for non-integer number literals is lossy floating point and out of scope). -/
inductive Json where
  | null : Json
  | bool : Bool → Json
  | num : Int → Json
  | str : Chars → Json
  | arr : List Json → Json
  | obj : List (Chars × Json) → Json

/-- First-match field lookup in a JSON object. -/
def lookupField : List (Chars × Json) → Chars → Option Json
  | [], _ => none
  | kv :: rest, k => if kv.1 = k then some kv.2 else lookupField rest k

def kCurrency : Chars := "currency".data
def kIssuer : Chars := "issuer".data
def kValue : Chars := "value".data
def kLCI : Chars := "ledger_current_index".data
def kLI : Chars := "ledger_index".data
def kAccountData : Chars := "account_data".data
def kQueueData : Chars := "queue_data".data
def kStatus : Chars := "status".data
def kValidated : Chars := "validated".data
def kAccount : Chars := "account".data
def kLIMin : Chars := "ledger_index_min".data
def kLIMax : Chars := "ledger_index_max".data
def kLimit : Chars := "limit".data
def kTransactions : Chars := "transactions".data
def kMeta : Chars := "meta".data
def kTx : Chars := "tx".data
def kADAccount : Chars := "Account".data
def kADBalance : Chars := "Balance".data
def kFlags : Chars := "Flags".data
def kLET : Chars := "LedgerEntryType".data
def kOwnerCount : Chars := "OwnerCount".data
def kPrevTxnID : Chars := "PreviousTxnID".data
def kPrevTxnLgrSeq : Chars := "PreviousTxnLgrSeq".data
def kSequence : Chars := "Sequence".data
def kIndex : Chars := "index".data
def kAuthChangeQueued : Chars := "auth_change_queued".data
def kHighestSequence : Chars := "highest_sequence".data
def kLowestSequence : Chars := "lowest_sequence".data
def kMaxSpendDropsTotal : Chars := "max_spend_drops_total".data
def kTxnCount : Chars := "txn_count".data
def kLastLedgerSequence : Chars := "LastLedgerSequence".data
def kAuthChange : Chars := "auth_change".data
def kFee : Chars := "fee".data
def kFeeLevel : Chars := "fee_level".data
def kMaxSpendDrops : Chars := "max_spend_drops".data
def kSeq : Chars := "seq".data

/-- A JSON string field (serde `String`). -/
def asStr : Json → Option Chars
  | Json.str s => some s
  | _ => none

/-- A JSON boolean field (serde `bool`). -/
def asBool : Json → Option Bool
  | Json.bool b => some b
  | _ => none

/-- serde `i64`: a JSON integer within the i64 range. -/
def asI64 : Json → Option Int
  | Json.num n => if -(2 ^ 63) ≤ n ∧ n ≤ 2 ^ 63 - 1 then some n else none
  | _ => none

/-- serde `u64`: a nonnegative JSON integer within the u64 range. -/
def asU64 : Json → Option Int
  | Json.num n => if 0 ≤ n ∧ n ≤ 2 ^ 64 - 1 then some n else none
  | _ => none

/-- `BigDecimal`'s deserializer: `visit_str` parses with `FromStr`, the
integer visitors convert exactly. -/
def decodeBigDecJson : Json → Option BigDec
  | Json.str s => parseBigDec s
  | Json.num n => some ⟨n, 0⟩
  | _ => none

/-- serde's handling of an `Option<T>` struct field: missing or `null` is
`None`; a present non-null value must decode. -/
def optField {α : Type} (fs : List (Chars × Json)) (k : Chars) (dec : Json → Option α) :
    Option (Option α) :=
  match lookupField fs k with
  | none => some none
  | some Json.null => some none
  | some v => (dec v).map some

inductive AccErr where
  | tooShort : AccErr
  | notR : AccErr
  | tooLong : AccErr
deriving DecidableEq

/-- `account_validate` from `src/lib.rs` (the error strings built by
`format!` are abstracted into the three `AccErr` kinds): `s.len()` is the
UTF-8 byte length, `s.chars().nth(0)` the first Unicode scalar. -/
def account_validate (s : Chars) : Except AccErr Chars :=
  if utf8Len s < 25 then Except.error AccErr.tooShort
  else
    match s.head? with
    | some c =>
      if c ≠ 'r' then Except.error AccErr.notR
      else if 35 < utf8Len s then Except.error AccErr.tooLong
      else Except.ok s
    | none =>
      if 35 < utf8Len s then Except.error AccErr.tooLong
      else Except.ok s

structure Account where
  chars : Chars
deriving DecidableEq

/-- `impl FromStr for Account`. -/
def Account.fromStr (s : Chars) : Except AccErr Account :=
  (account_validate s).map Account.mk

/-- The shape invariant stated in the doc comment of `Account`. -/
def accountInvariant (a : Account) : Prop :=
  25 ≤ utf8Len a.chars ∧ utf8Len a.chars ≤ 35 ∧ a.chars.head? = some 'r'

instance (a : Account) : Decidable (accountInvariant a) := by
  unfold accountInvariant; infer_instance

/-- The derived `Deserialize` of the newtype `struct Account(String)`:
it accepts any JSON string and performs no validation. -/
def decodeAccount : Json → Option Account
  | Json.str s => some ⟨s⟩
  | _ => none

inductive Balance where
  | XRP : BigDec → Balance
  | Other : Chars → Chars → BigDec → Balance
deriving DecidableEq

/-- The `Other { currency, issuer, value }` struct variant of `Balance`
applied to an object's fields: all three fields are required and typed
(`currency`/`issuer` strings, `value` a `BigDecimal`); unknown fields are
ignored; a missing or ill-typed field is a failure. -/
def decodeBalanceObj (fs : List (Chars × Json)) : Option Balance :=
  match lookupField fs kCurrency with
  | some (Json.str c) =>
    match lookupField fs kIssuer with
    | some (Json.str i) =>
      match lookupField fs kValue with
      | some jv =>
        match decodeBigDecJson jv with
        | some v => some (Balance.Other c i v)
        | none => none
      | none => none
    | _ => none
  | _ => none

/-- The derived deserializer of the `#[serde(untagged)] enum Balance`:
the `XRP(BigDecimal)` variant is tried first (a string or number scalar),
then the `Other` struct variant on an object. -/
def decodeBalance (j : Json) : Option Balance :=
  match decodeBigDecJson j with
  | some d => some (Balance.XRP d)
  | none =>
    match j with
    | Json.obj fs => decodeBalanceObj fs
    | _ => none

/-- `BigDecimal`'s serializer (`collect_str` of `Display`). -/
def encodeBigDec (d : BigDec) : Json := Json.str (printBigDec d)

/-- The derived serializer of the untagged `Balance`. -/
def encodeBalance : Balance → Json
  | Balance.XRP d => encodeBigDec d
  | Balance.Other c i v =>
    Json.obj [(kCurrency, Json.str c), (kIssuer, Json.str i), (kValue, encodeBigDec v)]

/-- The decimal value carried by a scalar JSON value, if any. -/
def scalarDecVal : Json → Option ℚ
  | Json.str s => (parseBigDec s).map toRat
  | Json.num n => some ((n : ℚ))
  | _ => none

inductive LedgerIndex where
  | Current : BigDec → LedgerIndex
  | Number : Int → LedgerIndex
  | StrValue : Chars → LedgerIndex
deriving DecidableEq

/-- The derived deserializer of the `#[serde(untagged)] enum LedgerIndex`,
applied to a field map (its variants are struct variants, so the input is the
set of fields handed over by the enclosing `#[serde(flatten)]`): variants are
tried in declaration order `Current`, `Number`, `StrValue`.  A
`serde_json::Number` field accepts only a JSON number, never a string. -/
def decodeLedgerIndexFields (fs : List (Chars × Json)) : Option LedgerIndex :=
  match (lookupField fs kLCI).bind decodeBigDecJson with
  | some d => some (LedgerIndex.Current d)
  | none =>
    match lookupField fs kLI with
    | some (Json.num n) => some (LedgerIndex.Number n)
    | some (Json.str s) => some (LedgerIndex.StrValue s)
    | _ => none

inductive LedgerEntryType where
  | AccountRoot : LedgerEntryType
deriving DecidableEq

/-- The derived deserializer of `enum LedgerEntryType` (a single unit
variant): only the string `"AccountRoot"` is accepted. -/
def decodeLedgerEntryType : Json → Option LedgerEntryType
  | Json.str s => if s = "AccountRoot".data then some LedgerEntryType.AccountRoot else none
  | _ => none

structure AccountData where
  Account : Chars
  Balance : BigDec
  Flags : BigDec
  LedgerEntryType : LedgerEntryType
  OwnerCount : BigDec
  PreviousTxnID : Chars
  PreviousTxnLgrSeq : BigDec
  Sequence : BigDec
  index : Chars
deriving DecidableEq

/-- The derived deserializer of `AccountData`: every field is required. -/
def decodeAccountData : Json → Option AccountData
  | Json.obj fs =>
    ((lookupField fs kADAccount).bind asStr).bind fun a =>
    ((lookupField fs kADBalance).bind decodeBigDecJson).bind fun b =>
    ((lookupField fs kFlags).bind decodeBigDecJson).bind fun fl =>
    ((lookupField fs kLET).bind decodeLedgerEntryType).bind fun le =>
    ((lookupField fs kOwnerCount).bind decodeBigDecJson).bind fun oc =>
    ((lookupField fs kPrevTxnID).bind asStr).bind fun pt =>
    ((lookupField fs kPrevTxnLgrSeq).bind decodeBigDecJson).bind fun pl =>
    ((lookupField fs kSequence).bind decodeBigDecJson).bind fun sq =>
    ((lookupField fs kIndex).bind asStr).bind fun ix =>
    some ⟨a, b, fl, le, oc, pt, pl, sq, ix⟩
  | _ => none

structure QueuedTransaction where
  LastLedgerSequence : Option BigDec
  auth_change : Bool
  fee : BigDec
  fee_level : BigDec
  max_spend_drops : BigDec
  seq : BigDec
deriving DecidableEq

/-- The derived deserializer of `QueuedTransaction`. -/
def decodeQueuedTransaction : Json → Option QueuedTransaction
  | Json.obj fs =>
    (optField fs kLastLedgerSequence decodeBigDecJson).bind fun lls =>
    ((lookupField fs kAuthChange).bind asBool).bind fun ac =>
    ((lookupField fs kFee).bind decodeBigDecJson).bind fun fe =>
    ((lookupField fs kFeeLevel).bind decodeBigDecJson).bind fun fl =>
    ((lookupField fs kMaxSpendDrops).bind decodeBigDecJson).bind fun ms =>
    ((lookupField fs kSeq).bind decodeBigDecJson).bind fun sq =>
    some ⟨lls, ac, fe, fl, ms, sq⟩
  | _ => none

/-- serde `Vec<QueuedTransaction>`. -/
def decodeQTList : Json → Option (List QueuedTransaction)
  | Json.arr xs => mapMOpt decodeQueuedTransaction xs
  | _ => none

structure LaziedQueueData where
  auth_change_queued : Option Bool
  highest_sequence : Option BigDec
  lowest_sequence : Option BigDec
  max_spend_drops_total : Option BigDec
  transactions : Option (List QueuedTransaction)
  txn_count : Option BigDec
deriving DecidableEq

/-- The derived deserializer of `LaziedQueueData`: all six fields optional. -/
def decodeLaziedQueueData : Json → Option LaziedQueueData
  | Json.obj fs =>
    (optField fs kAuthChangeQueued asBool).bind fun a =>
    (optField fs kHighestSequence decodeBigDecJson).bind fun h =>
    (optField fs kLowestSequence decodeBigDecJson).bind fun l =>
    (optField fs kMaxSpendDropsTotal decodeBigDecJson).bind fun m =>
    (optField fs kTransactions decodeQTList).bind fun t =>
    (optField fs kTxnCount decodeBigDecJson).bind fun c =>
    some ⟨a, h, l, m, t, c⟩
  | _ => none

/-- The field names declared by `AccountInfo` itself; every other field of the
payload is handed to the `#[serde(flatten)]`ed `LedgerIndex`. -/
def accountInfoNames : List Chars := [kAccountData, kQueueData, kStatus, kValidated]

/-- The fields delegated to the flattened `LedgerIndex` deserializer. -/
def restFields (fs : List (Chars × Json)) : List (Chars × Json) :=
  fs.filter (fun kv => !(accountInfoNames.contains kv.1))

structure AccountInfo where
  account_data : AccountData
  queue_data : Option LaziedQueueData
  status : Chars
  validated : Option Bool
  ledger_index : LedgerIndex
deriving DecidableEq

/-- The derived deserializer of `AccountInfo`: `account_data` and `status`
required, `queue_data` and `validated` optional, and the flattened
`ledger_index` decoded from the remaining fields. -/
def decodeAccountInfo : Json → Option AccountInfo
  | Json.obj fs =>
    ((lookupField fs kAccountData).bind decodeAccountData).bind fun ad =>
    (optField fs kQueueData decodeLaziedQueueData).bind fun qd =>
    ((lookupField fs kStatus).bind asStr).bind fun st =>
    (optField fs kValidated asBool).bind fun vd =>
    (decodeLedgerIndexFields (restFields fs)).bind fun li =>
    some ⟨ad, qd, st, vd, li⟩
  | _ => none

structure AccountTransactionTx where
  ledger_index : Int
deriving DecidableEq

/-- The derived deserializer of `AccountTransactionTx` (`ledger_index: u64`). -/
def decodeAccountTransactionTx : Json → Option AccountTransactionTx
  | Json.obj fs => ((lookupField fs kLI).bind asU64).map AccountTransactionTx.mk
  | _ => none

structure AccountTransaction where
  meta : Json
  tx : AccountTransactionTx
  validated : Bool

/-- The derived deserializer of `AccountTransaction` (`meta` is an arbitrary
`serde_json::Value`). -/
def decodeAccountTransaction : Json → Option AccountTransaction
  | Json.obj fs =>
    (lookupField fs kMeta).bind fun mt =>
    ((lookupField fs kTx).bind decodeAccountTransactionTx).bind fun tx =>
    ((lookupField fs kValidated).bind asBool).bind fun vd =>
    some ⟨mt, tx, vd⟩
  | _ => none

/-- serde `Vec<AccountTransaction>`. -/
def decodeATList : Json → Option (List AccountTransaction)
  | Json.arr xs => mapMOpt decodeAccountTransaction xs
  | _ => none

structure AccountTx where
  account : Account
  ledger_index_min : Int
  ledger_index_max : Int
  limit : Int
  transactions : List AccountTransaction

/-- The derived deserializer of the `account_tx` response `AccountTx`; its
`account` field goes through `Account`'s derived (non-validating)
deserializer. -/
def decodeAccountTx : Json → Option AccountTx
  | Json.obj fs =>
    ((lookupField fs kAccount).bind decodeAccount).bind fun a =>
    ((lookupField fs kLIMin).bind asI64).bind fun mn =>
    ((lookupField fs kLIMax).bind asI64).bind fun mx =>
    ((lookupField fs kLimit).bind asI64).bind fun lm =>
    ((lookupField fs kTransactions).bind decodeATList).bind fun ts =>
    some ⟨a, mn, mx, lm, ts⟩
  | _ => none

/-- Modelled from the spec: the generic RPC dispatcher of §4.3 lives in the
external `throttled_json_rpc` macro crate (`jsonrpc_client!`), whose source is
not part of this repository; its error taxonomy and result handling follow
§4.3/§7 — transport failures become `Transport`, node error envelopes become
`Remote`, and a `result` payload is decoded into the response type, a failure
being `Decode`. -/
inductive RpcError where
  | Transport : RpcError
  | Remote : Int → Chars → RpcError
  | Decode : RpcError
deriving DecidableEq

/-- Modelled from the spec: the reply handed back by the transport
collaborator, as seen by the dispatcher. -/
inductive RpcReply where
  | transportFail : RpcReply
  | errorEnvelope : Int → Chars → RpcReply
  | resultPayload : Json → RpcReply

/-- Modelled from the spec: the result-handling stage of `call` (§4.3). -/
def callRpc {R : Type} (dec : Json → Option R) : RpcReply → Except RpcError R
  | RpcReply.transportFail => Except.error RpcError.Transport
  | RpcReply.errorEnvelope c m => Except.error (RpcError.Remote c m)
  | RpcReply.resultPayload j =>
    match dec j with
    | some r => Except.ok r
    | none => Except.error RpcError.Decode

/-- The account validator transcribed from the specification's own wording
(claim C2), for comparison with the source's `account_validate`: checks in
order, length measured like the source measures it. -/
def account_validate_spec (s : Chars) : Except AccErr Chars :=
  if utf8Len s < 25 then Except.error AccErr.tooShort
  else if (match s.head? with | some c => c != 'r' | none => false) then Except.error AccErr.notR
  else if 35 < utf8Len s then Except.error AccErr.tooLong
  else Except.ok s

/-- The fields of a well-formed `account_data` payload used as a concrete
test vector. -/
def sampleADFields : List (Chars × Json) :=
  [(kADAccount, Json.str ("rA").data),
    (kADBalance, Json.num 9977),
    (kFlags, Json.num 0),
    (kLET, Json.str ("AccountRoot").data),
    (kOwnerCount, Json.num 0),
    (kPrevTxnID, Json.str ("FF").data),
    (kPrevTxnLgrSeq, Json.num 251),
    (kSequence, Json.num 5),
    (kIndex, Json.str ("13F1").data)]

/-- A well-formed `account_data` payload used as a concrete test vector. -/
def sampleAccountDataJson : Json := Json.obj sampleADFields

/-- The `AccountData` value `sampleAccountDataJson` decodes to. -/
def sampleAccountData : AccountData :=
  ⟨("rA").data, ⟨9977, 0⟩, ⟨0, 0⟩, LedgerEntryType.AccountRoot, ⟨0, 0⟩,
    ("FF").data, ⟨251, 0⟩, ⟨5, 0⟩, ("13F1").data⟩

/-- An `account_info` result payload with no queue data present. -/
def sampleAccountInfoFields : List (Chars × Json) :=
  [(kAccountData, sampleAccountDataJson),
   (kStatus, Json.str ("success").data),
   (kLCI, Json.num 7)]

/-- An `account_info` result payload with every required field except any
ledger-index field. -/
def sampleNoLedgerFields : List (Chars × Json) :=
  [(kAccountData, sampleAccountDataJson),
   (kStatus, Json.str ("success").data)]

/-- A queue-data object carrying only two of the six optional fields. -/
def sampleQueueFields : List (Chars × Json) :=
  [(kTxnCount, Json.num 2),
   (kAuthChangeQueued, Json.bool false)]

/-- An `account_tx` result payload whose `account` field is the one-byte
string `"x"`. -/
def sampleAccountTxJson : Json :=
  Json.obj [(kAccount, Json.str ("x").data),
    (kLIMin, Json.num 1),
    (kLIMax, Json.num 2),
    (kLimit, Json.num 3),
    (kTransactions, Json.arr [])]

/-- An issued-currency `Balance` object used as a concrete test vector. -/
def sampleBalanceFields : List (Chars × Json) :=
  [(kCurrency, Json.str ("USD").data),
   (kIssuer, Json.str ("rI").data),
   (kValue, Json.str ("3.07").data)]

theorem charUtf8Size_pos (c : Char) : 1 ≤ charUtf8Size c := by
  unfold charUtf8Size; split_ifs <;> omega

theorem length_le_utf8Len (s : Chars) : s.length ≤ utf8Len s := by
  induction s with
  | nil => simp [utf8Len]
  | cons c t ih =>
    have := charUtf8Size_pos c
    simp only [utf8Len, List.map_cons, List.sum_cons, List.length_cons] at *
    omega

theorem natDigitsAux_eq_of_le (f1 : Nat) : ∀ f2 n, n ≤ f1 → n ≤ f2 →
    natDigitsAux f1 n = natDigitsAux f2 n := by
  induction f1 with
  | zero =>
    intro f2 n h1 _
    have hn : n = 0 := by omega
    subst hn
    cases f2 <;> simp [natDigitsAux]
  | succ g ih =>
    intro f2 n h1 h2
    cases n with
    | zero => cases f2 <;> simp [natDigitsAux]
    | succ m =>
      cases f2 with
      | zero => omega
      | succ g2 =>
        simp only [natDigitsAux]
        have hd : (m + 1) / 10 < m + 1 := Nat.div_lt_self (by omega) (by omega)
        exact congrArg _ (ih g2 ((m + 1) / 10) (by omega) (by omega))

theorem natDigits_eq_cons (n : Nat) (h : 0 < n) :
    natDigits n = (n % 10) :: natDigits (n / 10) := by
  obtain ⟨m, rfl⟩ : ∃ m, n = m + 1 := ⟨n - 1, by omega⟩
  show natDigitsAux (m + 1) (m + 1) = _
  simp only [natDigitsAux]
  have hd : (m + 1) / 10 < m + 1 := Nat.div_lt_self (by omega) (by omega)
  exact congrArg _ (natDigitsAux_eq_of_le m ((m + 1) / 10) ((m + 1) / 10) (by omega) (by omega))

theorem natDigits_lt (n : Nat) : ∀ d ∈ natDigits n, d < 10 := by
  induction n using Nat.strong_induction_on with
  | _ n ih =>
    rcases Nat.eq_zero_or_pos n with h | h
    · subst h; intro d hd; simp [natDigits, natDigitsAux] at hd
    · rw [natDigits_eq_cons n h]
      intro d hd
      rcases List.mem_cons.mp hd with rfl | hd'
      · exact Nat.mod_lt _ (by omega)
      · exact ih (n / 10) (Nat.div_lt_self h (by omega)) d hd'

theorem ofDigits_natDigits (n : Nat) : Nat.ofDigits 10 (natDigits n) = n := by
  induction n using Nat.strong_induction_on with
  | _ n ih =>
    rcases Nat.eq_zero_or_pos n with h | h
    · subst h; rfl
    · rw [natDigits_eq_cons n h, Nat.ofDigits_cons,
        ih (n / 10) (Nat.div_lt_self h (by omega))]
      omega

theorem natDigitsBE_ne_nil (n : Nat) : natDigitsBE n ≠ [] := by
  unfold natDigitsBE
  split_ifs with h
  · simp
  · rw [natDigits_eq_cons n (by omega)]
    simp

theorem natDigitsBE_lt (n : Nat) : ∀ d ∈ natDigitsBE n, d < 10 := by
  unfold natDigitsBE
  split_ifs with h
  · intro d hd; simp at hd; omega
  · intro d hd
    exact natDigits_lt n d (List.mem_reverse.mp hd)

theorem ofDigits_reverse_natDigitsBE (n : Nat) :
    Nat.ofDigits 10 (natDigitsBE n).reverse = n := by
  unfold natDigitsBE
  split_ifs with h
  · subst h; rfl
  · rw [List.reverse_reverse]; exact ofDigits_natDigits n

theorem charDigit_digitChar (d : Nat) (h : d < 10) :
    charDigit (Nat.digitChar d) = some d := by
  interval_cases d <;> decide

theorem charDigit_bounds (c : Char) (x : Nat) (h : charDigit c = some x) :
    48 ≤ c.toNat ∧ c.toNat ≤ 57 := by
  unfold charDigit at h
  split_ifs at h with hb
  exact hb

theorem charDigit_expChar (c : Char) (x : Nat) (h : charDigit c = some x) :
    expChar c = false := by
  have hb := charDigit_bounds c x h
  have he : c ≠ 'e' := by rintro rfl; exact absurd hb (by decide)
  have hE : c ≠ 'E' := by rintro rfl; exact absurd hb (by decide)
  simp [expChar, he, hE]

theorem charDigit_dotChar (c : Char) (x : Nat) (h : charDigit c = some x) :
    dotChar c = false := by
  have hb := charDigit_bounds c x h
  have hd : c ≠ '.' := by rintro rfl; exact absurd hb (by decide)
  simp [dotChar, hd]

theorem charDigit_ne_plus (c : Char) (x : Nat) (h : charDigit c = some x) : c ≠ '+' := by
  have hb := charDigit_bounds c x h
  rintro rfl; exact absurd hb (by decide)

theorem charDigit_ne_minus (c : Char) (x : Nat) (h : charDigit c = some x) : c ≠ '-' := by
  have hb := charDigit_bounds c x h
  rintro rfl; exact absurd hb (by decide)

theorem mem_natToChars_digit (m : Nat) (c : Char) (hc : c ∈ natToChars m) :
    ∃ x, charDigit c = some x := by
  obtain ⟨d, hd, rfl⟩ := List.mem_map.mp hc
  exact ⟨d, charDigit_digitChar d (natDigitsBE_lt m d hd)⟩

theorem mapMOpt_append {α β : Type} (f : α → Option β) (a b : List α) (da db : List β)
    (ha : mapMOpt f a = some da) (hb : mapMOpt f b = some db) :
    mapMOpt f (a ++ b) = some (da ++ db) := by
  induction a generalizing da with
  | nil =>
    simp only [mapMOpt, Option.some.injEq] at ha
    subst ha; simpa using hb
  | cons x xs ih =>
    simp only [List.cons_append, mapMOpt] at ha ⊢
    cases hfx : f x with
    | none => rw [hfx] at ha; cases ha
    | some y =>
      rw [hfx] at ha
      cases hxs : mapMOpt f xs with
      | none => rw [hxs] at ha; cases ha
      | some ys =>
        rw [hxs] at ha
        cases ha
        simp only [List.append_eq]
        rw [ih ys hxs]
        rfl

theorem mapMOpt_map_digitChar (ds : List Nat) (h : ∀ d ∈ ds, d < 10) :
    mapMOpt charDigit (ds.map Nat.digitChar) = some ds := by
  induction ds with
  | nil => rfl
  | cons d tl ih =>
    simp only [List.map_cons, mapMOpt, charDigit_digitChar d (h d (by simp))]
    rw [ih (fun x hx => h x (by simp [hx]))]

theorem mapMOpt_natToChars (n : Nat) :
    mapMOpt charDigit (natToChars n) = some (natDigitsBE n) :=
  mapMOpt_map_digitChar (natDigitsBE n) (natDigitsBE_lt n)

theorem mapMOpt_replicate_zero (k : Nat) :
    mapMOpt charDigit (List.replicate k '0') = some (List.replicate k 0) := by
  induction k with
  | zero => rfl
  | succ m ih => simp only [List.replicate_succ, mapMOpt, ih]; rfl

theorem ofDigits_replicate_zero (k : Nat) :
    Nat.ofDigits 10 (List.replicate k 0) = 0 := by
  induction k with
  | zero => rfl
  | succ m ih => simp [List.replicate_succ, Nat.ofDigits_cons, ih]

theorem splitAtFirst_of_forall (p : Char → Bool) (s : Chars)
    (h : ∀ c ∈ s, p c = false) : splitAtFirst p s = none := by
  induction s with
  | nil => rfl
  | cons c t ih =>
    have ht := ih (fun x hx => h x (by simp [hx]))
    simp [splitAtFirst, h c (by simp), ht]

theorem splitAtFirst_append (p : Char → Bool) (a : Chars) (x : Char) (b : Chars)
    (h : ∀ c ∈ a, p c = false) (hx : p x = true) :
    splitAtFirst p (a ++ x :: b) = some (a, b) := by
  induction a with
  | nil => simp [splitAtFirst, hx]
  | cons c t ih =>
    have ht := ih (fun y hy => h y (by simp [hy]))
    simp [List.cons_append, splitAtFirst, h c (by simp), ht]

theorem parseDigitsNat_of_mapM (s : Chars) (x : Nat) (xs : List Nat)
    (h : mapMOpt charDigit s = some (x :: xs)) :
    parseDigitsNat s = some (Nat.ofDigits 10 ((x :: xs).reverse)) := by
  unfold parseDigitsNat
  rw [h]

theorem parseBigIntChars_digits (s : Chars) (x : Nat) (xs : List Nat)
    (h : mapMOpt charDigit s = some (x :: xs)) :
    parseBigIntChars s = some ((Nat.ofDigits 10 ((x :: xs).reverse) : Nat) : Int) := by
  cases s with
  | nil => simp [mapMOpt] at h
  | cons c t =>
    cases hcc : charDigit c with
    | none => simp [mapMOpt, hcc] at h
    | some y =>
      have hp := charDigit_ne_plus c y hcc
      have hm := charDigit_ne_minus c y hcc
      simp only [parseBigIntChars]
      rw [if_neg hp, if_neg hm, parseDigitsNat_of_mapM (c :: t) x xs h]
      rfl

theorem parseBigIntChars_neg_digits (s : Chars) (x : Nat) (xs : List Nat)
    (h : mapMOpt charDigit s = some (x :: xs)) :
    parseBigIntChars ('-' :: s) =
      some (-((Nat.ofDigits 10 ((x :: xs).reverse) : Nat) : Int)) := by
  have h1 : parseDigitsNat s = some (Nat.ofDigits 10 ((x :: xs).reverse)) :=
    parseDigitsNat_of_mapM s x xs h
  simp [parseBigIntChars, h1]

theorem parseBase_noDot (s : Chars) (v e : Int) (hne : s ≠ [])
    (hnd : ∀ c ∈ s, dotChar c = false) (h : parseBigIntChars s = some v) :
    parseBase s e = some ⟨v, 0 - e⟩ := by
  simp [parseBase, hne, splitAtFirst_of_forall dotChar s hnd, h]

theorem parseBase_dot (lead trail : Chars) (v e : Int)
    (hl : ∀ c ∈ lead, dotChar c = false)
    (h : parseBigIntChars (lead ++ trail) = some v) :
    parseBase (lead ++ '.' :: trail) e = some ⟨v, (trail.length : Int) - e⟩ := by
  have hsp := splitAtFirst_append dotChar lead '.' trail hl (by decide)
  have hne : lead ++ '.' :: trail ≠ [] := by simp
  simp [parseBase, hne, hsp, h]

theorem parseBigDec_noExp (s : Chars) (h : ∀ c ∈ s, expChar c = false) :
    parseBigDec s = parseBase s 0 := by
  simp [parseBigDec, splitAtFirst_of_forall expChar s h]

theorem ofDigits_BE_append_zeros (n k : Nat) :
    Nat.ofDigits 10 ((natDigitsBE n ++ List.replicate k 0).reverse) = n * 10 ^ k := by
  rw [List.reverse_append, List.reverse_replicate, Nat.ofDigits_append,
    ofDigits_replicate_zero, ofDigits_reverse_natDigitsBE]
  simp [List.length_replicate]
  ring

theorem ofDigits_zero_cons (m n : Nat) :
    Nat.ofDigits 10 ((0 :: (List.replicate m 0 ++ natDigitsBE n)).reverse) = n := by
  rw [List.reverse_cons, List.reverse_append, List.reverse_replicate,
    Nat.ofDigits_append, Nat.ofDigits_append, ofDigits_replicate_zero,
    ofDigits_reverse_natDigitsBE]
  simp [Nat.ofDigits]

theorem printBody_chars (n : Nat) (sc : Int) :
    ∀ c ∈ printBody n sc, c = '.' ∨ c = '0' ∨ c ∈ natToChars n := by
  intro c hc
  unfold printBody at hc
  split_ifs at hc with h1 h2 h3
  · simp only [List.mem_cons, List.mem_append, List.mem_replicate] at hc
    rcases hc with rfl | rfl | ⟨_, rfl⟩ | hc <;> tauto
  · simp only [List.mem_append, List.mem_replicate] at hc
    rcases hc with hc | ⟨_, rfl⟩ <;> tauto
  · exact Or.inr (Or.inr (List.take_subset _ _ hc))
  · simp only [List.mem_append, List.mem_cons] at hc
    rcases hc with hc | rfl | hc
    · exact Or.inr (Or.inr (List.take_subset _ _ hc))
    · tauto
    · exact Or.inr (Or.inr (List.drop_subset _ _ hc))

theorem printBigDec_noExp (d : BigDec) : ∀ c ∈ printBigDec d, expChar c = false := by
  have key : ∀ x, (x = '.' ∨ x = '0' ∨ x ∈ natToChars d.intVal.natAbs) → expChar x = false := by
    intro x hx
    rcases hx with rfl | rfl | hx
    · decide
    · decide
    · obtain ⟨y, hy⟩ := mem_natToChars_digit _ x hx
      exact charDigit_expChar x y hy
  intro c hc
  unfold printBigDec at hc
  split_ifs at hc
  · rcases List.mem_cons.mp hc with rfl | hc
    · decide
    · exact key c (printBody_chars _ _ c hc)
  · exact key c (printBody_chars _ _ c hc)

theorem toRat_congr (a b c e : Int) (h1 : a = b) (h2 : c = e) :
    toRat ⟨a, c⟩ = toRat ⟨b, e⟩ := by rw [h1, h2]

theorem toRat_scale_zero (v : Int) (k : Nat) :
    toRat ⟨v * 10 ^ k, 0 - 0⟩ = toRat ⟨v, -(k : Int)⟩ := by
  simp only [toRat, neg_neg, zpow_natCast]
  push_cast
  ring

theorem parseBigDec_printBigDec (d : BigDec) :
    ∃ e : BigDec, parseBigDec (printBigDec d) = some e ∧ toRat e = toRat d := by
  have hstep : parseBigDec (printBigDec d) = parseBase (printBigDec d) 0 :=
    parseBigDec_noExp _ (printBigDec_noExp d)
  obtain ⟨y, ys, hBE⟩ := List.exists_cons_of_ne_nil (natDigitsBE_ne_nil d.intVal.natAbs)
  have hAmap : mapMOpt charDigit (natToChars d.intVal.natAbs) = some (y :: ys) := by
    rw [mapMOpt_natToChars, hBE]
  have hofA : Nat.ofDigits 10 ((y :: ys).reverse) = d.intVal.natAbs := by
    rw [← hBE]; exact ofDigits_reverse_natDigitsBE _
  have hAdot : ∀ c ∈ natToChars d.intVal.natAbs, dotChar c = false := by
    intro c hc
    obtain ⟨x, hx⟩ := mem_natToChars_digit _ c hc
    exact charDigit_dotChar c x hx
  have hAne : natToChars d.intVal.natAbs ≠ [] := by
    intro hnil
    rw [natToChars, hBE] at hnil
    simp at hnil
  by_cases h1 : ((natToChars d.intVal.natAbs).length : Int) ≤ d.scale
  · -- the digits fall entirely behind the decimal point
    have hbody : printBody d.intVal.natAbs d.scale =
        '0' :: '.' :: (List.replicate (d.scale.toNat - (natToChars d.intVal.natAbs).length) '0'
          ++ natToChars d.intVal.natAbs) := by
      unfold printBody; rw [if_pos h1]
    have hza : mapMOpt charDigit
        (List.replicate (d.scale.toNat - (natToChars d.intVal.natAbs).length) '0'
          ++ natToChars d.intVal.natAbs) =
        some (List.replicate (d.scale.toNat - (natToChars d.intVal.natAbs).length) 0
          ++ (y :: ys)) :=
      mapMOpt_append _ _ _ _ _ (mapMOpt_replicate_zero _) hAmap
    have hfull : mapMOpt charDigit
        ('0' :: (List.replicate (d.scale.toNat - (natToChars d.intVal.natAbs).length) '0'
          ++ natToChars d.intVal.natAbs)) =
        some (0 :: (List.replicate (d.scale.toNat - (natToChars d.intVal.natAbs).length) 0
          ++ (y :: ys))) := by
      simp [mapMOpt, hza, (show charDigit '0' = some 0 from rfl)]
    have hval : Nat.ofDigits 10
        ((0 :: (List.replicate (d.scale.toNat - (natToChars d.intVal.natAbs).length) 0
          ++ (y :: ys))).reverse) = d.intVal.natAbs := by
      rw [show (0 :: (List.replicate (d.scale.toNat - (natToChars d.intVal.natAbs).length) 0
          ++ (y :: ys)))
          = 0 :: (List.replicate (d.scale.toNat - (natToChars d.intVal.natAbs).length) 0
            ++ natDigitsBE d.intVal.natAbs) from by rw [hBE]]
      exact ofDigits_zero_cons _ _
    have hlen : ((List.replicate (d.scale.toNat - (natToChars d.intVal.natAbs).length) '0'
        ++ natToChars d.intVal.natAbs).length : Int) - 0 = d.scale := by
      simp only [List.length_append, List.length_replicate]
      omega
    by_cases hneg : d.intVal < 0
    · have hpr : printBigDec d = ('-' :: '0' :: []) ++ '.' ::
          (List.replicate (d.scale.toNat - (natToChars d.intVal.natAbs).length) '0'
            ++ natToChars d.intVal.natAbs) := by
        unfold printBigDec; rw [if_pos hneg, hbody]; rfl
      have hbi : parseBigIntChars (('-' :: '0' :: []) ++
          (List.replicate (d.scale.toNat - (natToChars d.intVal.natAbs).length) '0'
            ++ natToChars d.intVal.natAbs)) = some (-(d.intVal.natAbs : Int)) := by
        rw [show ('-' :: '0' :: []) ++
            (List.replicate (d.scale.toNat - (natToChars d.intVal.natAbs).length) '0'
              ++ natToChars d.intVal.natAbs)
            = '-' :: ('0' :: (List.replicate
              (d.scale.toNat - (natToChars d.intVal.natAbs).length) '0'
              ++ natToChars d.intVal.natAbs)) from rfl]
        rw [parseBigIntChars_neg_digits _ _ _ hfull, hval]
      refine ⟨_, by rw [hstep, hpr]; exact parseBase_dot _ _ _ _ (by decide) hbi, ?_⟩
      exact toRat_congr _ _ _ _ (by omega) hlen
    · have hpr : printBigDec d = ('0' :: []) ++ '.' ::
          (List.replicate (d.scale.toNat - (natToChars d.intVal.natAbs).length) '0'
            ++ natToChars d.intVal.natAbs) := by
        unfold printBigDec; rw [if_neg hneg, hbody]; rfl
      have hbi : parseBigIntChars (('0' :: []) ++
          (List.replicate (d.scale.toNat - (natToChars d.intVal.natAbs).length) '0'
            ++ natToChars d.intVal.natAbs)) = some ((d.intVal.natAbs : Nat) : Int) := by
        rw [show ('0' :: []) ++
            (List.replicate (d.scale.toNat - (natToChars d.intVal.natAbs).length) '0'
              ++ natToChars d.intVal.natAbs)
            = '0' :: (List.replicate
              (d.scale.toNat - (natToChars d.intVal.natAbs).length) '0'
              ++ natToChars d.intVal.natAbs) from rfl]
        rw [parseBigIntChars_digits _ _ _ hfull, hval]
      refine ⟨_, by rw [hstep, hpr]; exact parseBase_dot _ _ _ _ (by decide) hbi, ?_⟩
      exact toRat_congr _ _ _ _ (by omega) hlen
  · by_cases h2 : d.scale < 0
    · -- negative scale: digits followed by zeros, no decimal point
      have hbody : printBody d.intVal.natAbs d.scale =
          natToChars d.intVal.natAbs ++ List.replicate (-d.scale).toNat '0' := by
        unfold printBody; rw [if_neg h1, if_pos h2]
      have hfull2 : mapMOpt charDigit
          (natToChars d.intVal.natAbs ++ List.replicate (-d.scale).toNat '0') =
          some (y :: (ys ++ List.replicate (-d.scale).toNat 0)) := by
        have h := mapMOpt_append _ _ _ _ _ hAmap (mapMOpt_replicate_zero (-d.scale).toNat)
        simpa using h
      have hval2 : Nat.ofDigits 10
          ((y :: (ys ++ List.replicate (-d.scale).toNat 0)).reverse) =
          d.intVal.natAbs * 10 ^ (-d.scale).toNat := by
        rw [show y :: (ys ++ List.replicate (-d.scale).toNat 0)
            = natDigitsBE d.intVal.natAbs ++ List.replicate (-d.scale).toNat 0 from by
          rw [hBE]; rfl]
        exact ofDigits_BE_append_zeros _ _
      have hnd2 : ∀ c ∈ natToChars d.intVal.natAbs ++ List.replicate (-d.scale).toNat '0',
          dotChar c = false := by
        intro c hc
        rcases List.mem_append.mp hc with hc | hc
        · exact hAdot c hc
        · rw [List.eq_of_mem_replicate hc]; decide
      by_cases hneg : d.intVal < 0
      · have hpr : printBigDec d =
            '-' :: (natToChars d.intVal.natAbs ++ List.replicate (-d.scale).toNat '0') := by
          unfold printBigDec; rw [if_pos hneg, hbody]
        have hbi : parseBigIntChars
            ('-' :: (natToChars d.intVal.natAbs ++ List.replicate (-d.scale).toNat '0')) =
            some (-((d.intVal.natAbs * 10 ^ (-d.scale).toNat : Nat) : Int)) := by
          rw [parseBigIntChars_neg_digits _ _ _ hfull2, hval2]
        have hnd3 : ∀ c ∈ '-' :: (natToChars d.intVal.natAbs
            ++ List.replicate (-d.scale).toNat '0'), dotChar c = false := by
          intro c hc
          rcases List.mem_cons.mp hc with rfl | hc
          · decide
          · exact hnd2 c hc
        refine ⟨_, by rw [hstep, hpr]; exact parseBase_noDot _ _ _ (by simp) hnd3 hbi, ?_⟩
        have hv : -((d.intVal.natAbs * 10 ^ (-d.scale).toNat : Nat) : Int) =
            d.intVal * 10 ^ (-d.scale).toNat := by
          have hNA : ((d.intVal.natAbs : Nat) : Int) = -d.intVal := by omega
          push_cast [hNA]
          ring
        rw [toRat_congr _ (d.intVal * 10 ^ (-d.scale).toNat) _ (0 - 0) hv rfl]
        rw [toRat_scale_zero]
        exact toRat_congr _ _ _ _ rfl (by omega)
      · have hpr : printBigDec d =
            natToChars d.intVal.natAbs ++ List.replicate (-d.scale).toNat '0' := by
          unfold printBigDec; rw [if_neg hneg, hbody]
        have hbi : parseBigIntChars
            (natToChars d.intVal.natAbs ++ List.replicate (-d.scale).toNat '0') =
            some (((d.intVal.natAbs * 10 ^ (-d.scale).toNat : Nat)) : Int) := by
          rw [parseBigIntChars_digits _ _ _ hfull2, hval2]
        refine ⟨_, by rw [hstep, hpr]; exact parseBase_noDot _ _ _ (by simp [hAne]) hnd2 hbi, ?_⟩
        have hv : (((d.intVal.natAbs * 10 ^ (-d.scale).toNat : Nat)) : Int) =
            d.intVal * 10 ^ (-d.scale).toNat := by
          have hNA : ((d.intVal.natAbs : Nat) : Int) = d.intVal := by omega
          push_cast [hNA]
          ring
        rw [toRat_congr _ (d.intVal * 10 ^ (-d.scale).toNat) _ (0 - 0) hv rfl]
        rw [toRat_scale_zero]
        exact toRat_congr _ _ _ _ rfl (by omega)
    · -- scale within the digit string
      by_cases hC : (natToChars d.intVal.natAbs).drop
          ((natToChars d.intVal.natAbs).length - d.scale.toNat) = []
      · -- empty fractional part: scale is zero, plain digit string
        have hApos : 0 < (natToChars d.intVal.natAbs).length := List.length_pos.mpr hAne
        have hsc0 : d.scale = 0 := by
          have hlenC := congrArg List.length hC
          simp only [List.length_drop, List.length_nil] at hlenC
          omega
        have hBA : (natToChars d.intVal.natAbs).take
            ((natToChars d.intVal.natAbs).length - d.scale.toNat) =
            natToChars d.intVal.natAbs := by
          have h3 := List.take_append_drop
            ((natToChars d.intVal.natAbs).length - d.scale.toNat) (natToChars d.intVal.natAbs)
          rw [hC, List.append_nil] at h3
          exact h3
        have hbody : printBody d.intVal.natAbs d.scale = natToChars d.intVal.natAbs := by
          unfold printBody; rw [if_neg h1, if_neg h2, if_pos hC, hBA]
        by_cases hneg : d.intVal < 0
        · have hpr : printBigDec d = '-' :: natToChars d.intVal.natAbs := by
            unfold printBigDec; rw [if_pos hneg, hbody]
          have hbi : parseBigIntChars ('-' :: natToChars d.intVal.natAbs) =
              some (-(d.intVal.natAbs : Int)) := by
            rw [parseBigIntChars_neg_digits _ _ _ hAmap, hofA]
          have hnd3 : ∀ c ∈ '-' :: natToChars d.intVal.natAbs, dotChar c = false := by
            intro c hc
            rcases List.mem_cons.mp hc with rfl | hc
            · decide
            · exact hAdot c hc
          refine ⟨_, by rw [hstep, hpr]; exact parseBase_noDot _ _ _ (by simp) hnd3 hbi, ?_⟩
          exact toRat_congr _ _ _ _ (by omega) (by omega)
        · have hpr : printBigDec d = natToChars d.intVal.natAbs := by
            unfold printBigDec; rw [if_neg hneg, hbody]
          have hbi : parseBigIntChars (natToChars d.intVal.natAbs) =
              some ((d.intVal.natAbs : Nat) : Int) := by
            rw [parseBigIntChars_digits _ _ _ hAmap, hofA]
          refine ⟨_, by rw [hstep, hpr]; exact parseBase_noDot _ _ _ hAne hAdot hbi, ?_⟩
          exact toRat_congr _ _ _ _ (by omega) (by omega)
      · -- the decimal point splits the digit string
        have hlenC : ((natToChars d.intVal.natAbs).drop
            ((natToChars d.intVal.natAbs).length - d.scale.toNat)).length = d.scale.toNat := by
          simp only [List.length_drop]
          omega
        have hbody : printBody d.intVal.natAbs d.scale =
            (natToChars d.intVal.natAbs).take
              ((natToChars d.intVal.natAbs).length - d.scale.toNat) ++
            '.' :: (natToChars d.intVal.natAbs).drop
              ((natToChars d.intVal.natAbs).length - d.scale.toNat) := by
          unfold printBody; rw [if_neg h1, if_neg h2, if_neg hC]
        have htd : (natToChars d.intVal.natAbs).take
            ((natToChars d.intVal.natAbs).length - d.scale.toNat) ++
            (natToChars d.intVal.natAbs).drop
              ((natToChars d.intVal.natAbs).length - d.scale.toNat) =
            natToChars d.intVal.natAbs := List.take_append_drop _ _
        have hldot : ∀ c ∈ (natToChars d.intVal.natAbs).take
            ((natToChars d.intVal.natAbs).length - d.scale.toNat), dotChar c = false :=
          fun c hc => hAdot c (List.take_subset _ _ hc)
        by_cases hneg : d.intVal < 0
        · have hpr : printBigDec d = ('-' :: (natToChars d.intVal.natAbs).take
              ((natToChars d.intVal.natAbs).length - d.scale.toNat)) ++
              '.' :: (natToChars d.intVal.natAbs).drop
                ((natToChars d.intVal.natAbs).length - d.scale.toNat) := by
            unfold printBigDec; rw [if_pos hneg, hbody]; rfl
          have hbi : parseBigIntChars (('-' :: (natToChars d.intVal.natAbs).take
              ((natToChars d.intVal.natAbs).length - d.scale.toNat)) ++
              (natToChars d.intVal.natAbs).drop
                ((natToChars d.intVal.natAbs).length - d.scale.toNat)) =
              some (-(d.intVal.natAbs : Int)) := by
            rw [show ('-' :: (natToChars d.intVal.natAbs).take
                ((natToChars d.intVal.natAbs).length - d.scale.toNat)) ++
                (natToChars d.intVal.natAbs).drop
                  ((natToChars d.intVal.natAbs).length - d.scale.toNat)
                = '-' :: ((natToChars d.intVal.natAbs).take
                  ((natToChars d.intVal.natAbs).length - d.scale.toNat) ++
                  (natToChars d.intVal.natAbs).drop
                    ((natToChars d.intVal.natAbs).length - d.scale.toNat)) from rfl, htd]
            rw [parseBigIntChars_neg_digits _ _ _ hAmap, hofA]
          have hl2 : ∀ c ∈ '-' :: (natToChars d.intVal.natAbs).take
              ((natToChars d.intVal.natAbs).length - d.scale.toNat), dotChar c = false := by
            intro c hc
            rcases List.mem_cons.mp hc with rfl | hc
            · decide
            · exact hldot c hc
          refine ⟨_, by rw [hstep, hpr]; exact parseBase_dot _ _ _ _ hl2 hbi, ?_⟩
          exact toRat_congr _ _ _ _ (by omega) (by rw [hlenC]; omega)
        · have hpr : printBigDec d = (natToChars d.intVal.natAbs).take
              ((natToChars d.intVal.natAbs).length - d.scale.toNat) ++
              '.' :: (natToChars d.intVal.natAbs).drop
                ((natToChars d.intVal.natAbs).length - d.scale.toNat) := by
            unfold printBigDec; rw [if_neg hneg, hbody]
          have hbi : parseBigIntChars ((natToChars d.intVal.natAbs).take
              ((natToChars d.intVal.natAbs).length - d.scale.toNat) ++
              (natToChars d.intVal.natAbs).drop
                ((natToChars d.intVal.natAbs).length - d.scale.toNat)) =
              some ((d.intVal.natAbs : Nat) : Int) := by
            rw [htd, parseBigIntChars_digits _ _ _ hAmap, hofA]
          refine ⟨_, by rw [hstep, hpr]; exact parseBase_dot _ _ _ _ hldot hbi, ?_⟩
          exact toRat_congr _ _ _ _ (by omega) (by rw [hlenC]; omega)

theorem toRat_intVal (n : Int) : toRat ⟨n, 0⟩ = (n : ℚ) := by simp [toRat]

theorem scalarDecVal_of_decode (j : Json) (v : BigDec)
    (h : decodeBigDecJson j = some v) : scalarDecVal j = some (toRat v) := by
  cases j <;> simp only [decodeBigDecJson] at h
  case num n =>
    cases h
    rw [scalarDecVal, toRat_intVal]
  case str s =>
    simp [scalarDecVal, h]
  all_goals cases h

theorem scalarDecVal_print (d : BigDec) :
    scalarDecVal (Json.str (printBigDec d)) = some (toRat d) := by
  obtain ⟨e, he, hrat⟩ := parseBigDec_printBigDec d
  simp [scalarDecVal, he, hrat]

theorem account_validate_ok (s t : Chars) (h : account_validate s = Except.ok t) :
    t = s ∧ 25 ≤ utf8Len s ∧ utf8Len s ≤ 35 ∧ s.head? = some 'r' := by
  cases s with
  | nil =>
    unfold account_validate at h
    rw [if_pos (by decide)] at h
    cases h
  | cons c t' =>
    unfold account_validate at h
    simp only [List.head?_cons] at h ⊢
    split_ifs at h with h1 h2 h3
    cases h
    have hc : c = 'r' := not_not.mp h2
    exact ⟨rfl, by omega, by omega, by rw [hc]⟩

theorem decodeBalanceObj_inv (fs : List (Chars × Json)) (b : Balance)
    (h : decodeBalanceObj fs = some b) :
    ∃ c i v jv, b = Balance.Other c i v ∧
      lookupField fs kCurrency = some (Json.str c) ∧
      lookupField fs kIssuer = some (Json.str i) ∧
      lookupField fs kValue = some jv ∧ decodeBigDecJson jv = some v := by
  unfold decodeBalanceObj at h
  cases h1 : lookupField fs kCurrency with
  | none => rw [h1] at h; simp at h
  | some j1 =>
    rw [h1] at h
    cases j1 <;> try simp at h
    case str c =>
      cases h2 : lookupField fs kIssuer with
      | none => rw [h2] at h; simp at h
      | some j2 =>
        rw [h2] at h
        cases j2 <;> try simp at h
        case str i =>
          cases h3 : lookupField fs kValue with
          | none => rw [h3] at h; simp at h
          | some jv =>
            rw [h3] at h
            cases h4 : decodeBigDecJson jv with
            | none => simp [h4] at h
            | some v =>
              simp [h4] at h
              subst h
              exact ⟨c, i, v, jv, rfl, rfl, rfl, rfl, h4⟩

theorem decodeBalance_XRP_inv (j : Json) (d : BigDec)
    (h : decodeBalance j = some (Balance.XRP d)) : decodeBigDecJson j = some d := by
  unfold decodeBalance at h
  cases hd : decodeBigDecJson j with
  | some d' =>
    rw [hd] at h
    simp only [Option.some.injEq, Balance.XRP.injEq] at h
    rw [h]
  | none =>
    rw [hd] at h
    exfalso
    cases j <;> simp at h
    case obj fs =>
      obtain ⟨c, i, v, jv, hb, _⟩ := decodeBalanceObj_inv fs _ h
      exact Balance.noConfusion hb

theorem decodeBalance_Other_inv (fs : List (Chars × Json)) (c i : Chars) (v : BigDec)
    (h : decodeBalance (Json.obj fs) = some (Balance.Other c i v)) :
    lookupField fs kCurrency = some (Json.str c) ∧
    lookupField fs kIssuer = some (Json.str i) ∧
    ∃ jv, lookupField fs kValue = some jv ∧ decodeBigDecJson jv = some v := by
  have h' : decodeBalanceObj fs = some (Balance.Other c i v) := h
  obtain ⟨c', i', v', jv, hb, h1, h2, h3, h4⟩ := decodeBalanceObj_inv fs _ h'
  cases hb
  exact ⟨h1, h2, jv, h3, h4⟩

theorem decodeLET_inv (j : Json) (e : LedgerEntryType)
    (h : decodeLedgerEntryType j = some e) : j = Json.str ("AccountRoot").data := by
  cases j <;> simp only [decodeLedgerEntryType] at h
  case str s =>
    split_ifs at h with hs
    rw [hs]
  all_goals cases h

theorem lookupField_restFields_none (fs : List (Chars × Json)) (k : Chars)
    (h : lookupField fs k = none) : lookupField (restFields fs) k = none := by
  induction fs with
  | nil => rfl
  | cons kv rest ih =>
    simp only [lookupField] at h
    by_cases hkk : kv.1 = k
    · rw [if_pos hkk] at h; cases h
    · rw [if_neg hkk] at h
      simp only [restFields, List.filter_cons]
      split
      · simp only [lookupField, if_neg hkk]
        exact ih h
      · exact ih h

theorem bind_const_none {α β : Type} (o : Option α) :
    (o.bind fun _ => (none : Option β)) = none := by cases o <;> rfl

/-- C1 (amended): values produced by the validating factory (`FromStr`)
always satisfy the `Account` shape invariant — byte length in [25, 35] and
first character `'r'`; the derived response deserializer, by contrast,
performs no validation (see the counterexample). -/
theorem C1_factory_invariant : ∀ (s : Chars) (a : Account),
    Account.fromStr s = Except.ok a → accountInvariant a := by
  intro s a h
  unfold Account.fromStr at h
  cases hv : account_validate s with
  | error e => rw [hv] at h; cases h
  | ok t =>
    rw [hv] at h
    simp only [Except.map] at h
    cases h
    obtain ⟨ht, h25, h35, hr⟩ := account_validate_ok s t hv
    subst ht
    exact ⟨h25, h35, hr⟩

/-- C1 witness: a 25-byte all-`'r'` string passes the factory and satisfies
the invariant. -/
theorem C1_factory_invariant_witness :
    accountInvariant (Account.mk (List.replicate 25 'r')) :=
  C1_factory_invariant (List.replicate 25 'r') (Account.mk (List.replicate 25 'r')) rfl

/-- C1 counterexample: decoding an `account_tx` response whose `account`
field is the one-byte string `"x"` succeeds — the derived `Deserialize` of
`Account` performs no validation — and the resulting `Account` violates the
claimed invariant, refuting ".. never produces an Account value violating
this invariant". -/
theorem C1_counterexample :
    decodeAccountTx sampleAccountTxJson =
      some ⟨Account.mk (("x").data), 1, 2, 3, []⟩ ∧
    ¬ accountInvariant (Account.mk (("x").data)) :=
  ⟨rfl, by decide⟩

/-- C2 (amended): the validator performs its checks in the claimed order —
too-short, then bad-prefix, then too-long, otherwise success returning the
input unchanged — which is exactly the spec-transcribed
`account_validate_spec`; but "length" is the UTF-8 BYTE length, so the
claimed consequence holds for a 10-byte (not 10-character) non-`'r'` string,
while a 40-character non-`'r'` string does report the bad-prefix error. -/
theorem C2_check_order : ∀ s : Chars,
    account_validate s = account_validate_spec s ∧
    (utf8Len s = 10 → account_validate s = Except.error AccErr.tooShort) ∧
    (s.length = 40 → ∀ c, s.head? = some c → c ≠ 'r' →
      account_validate s = Except.error AccErr.notR) := by
  intro s
  refine ⟨?_, ?_, ?_⟩
  · cases s with
    | nil => simp [account_validate, account_validate_spec, utf8Len]
    | cons c t =>
      simp only [account_validate, account_validate_spec, List.head?_cons]
      split_ifs <;> simp_all [bne_iff_ne]
  · intro h10
    unfold account_validate
    rw [if_pos (by omega)]
  · intro h40 c hc hcr
    have hge := length_le_utf8Len s
    cases s with
    | nil => simp at h40
    | cons c' t =>
      simp only [List.head?_cons, Option.some.injEq] at hc
      subst hc
      simp only [List.length_cons] at h40
      unfold account_validate
      simp only [List.head?_cons]
      rw [if_neg (by simp only [List.length_cons] at hge; omega), if_pos hcr]

/-- C2 counterexample: a 10-character string of three-byte characters has
byte length 30, so the validator reports the bad-prefix error, not the
too-short error the claim predicts for every 10-character non-`'r'` string. -/
theorem C2_counterexample :
    (List.replicate 10 '€').length = 10 ∧
    (List.replicate 10 '€').head? = some '€' ∧ '€' ≠ 'r' ∧
    account_validate (List.replicate 10 '€') = Except.error AccErr.notR ∧
    AccErr.notR ≠ AccErr.tooShort :=
  ⟨by decide, rfl, by decide, rfl, by decide⟩

/-- C2 witness: the order equation at a well-formed input, the too-short
consequence at a 10-byte input, and the bad-prefix consequence at a
40-character input. -/
theorem C2_check_order_witness :
    account_validate (List.replicate 26 'r') = account_validate_spec (List.replicate 26 'r') ∧
    account_validate (List.replicate 10 'a') = Except.error AccErr.tooShort ∧
    account_validate (List.replicate 40 'x') = Except.error AccErr.notR :=
  ⟨(C2_check_order (List.replicate 26 'r')).1,
   (C2_check_order (List.replicate 10 'a')).2.1 (by decide),
   (C2_check_order (List.replicate 40 'x')).2.2 (by decide) 'x' rfl (by decide)⟩

/-- C8 (amended): the validator measures length in UTF-8 bytes: any string
with byte length in [25, 35] whose first character is `'r'` validates, no
matter how few characters it has; and a string whose byte length exceeds 35
is rejected as too long PROVIDED its first character is `'r'` — with any
other first character the bad-prefix check fires before the too-long check. -/
theorem C8_byte_length :
    (∀ s : Chars, 25 ≤ utf8Len s → utf8Len s ≤ 35 → s.head? = some 'r' →
      account_validate s = Except.ok s) ∧
    (∀ s : Chars, s.head? = some 'r' → 35 < utf8Len s →
      account_validate s = Except.error AccErr.tooLong) := by
  constructor
  · intro s h25 h35 hr
    cases s with
    | nil => simp at hr
    | cons c t =>
      simp only [List.head?_cons, Option.some.injEq] at hr
      subst hr
      unfold account_validate
      simp only [List.head?_cons]
      rw [if_neg (by omega), if_neg (by simp), if_neg (by omega)]
  · intro s hr h35
    cases s with
    | nil => simp at hr
    | cons c t =>
      simp only [List.head?_cons, Option.some.injEq] at hr
      subst hr
      unfold account_validate
      simp only [List.head?_cons]
      rw [if_neg (by omega), if_neg (by simp), if_pos h35]

/-- C8 counterexample: 25 two-byte characters give byte length 50 > 35, yet
with a non-`'r'` first character the validator reports the bad-prefix error,
not the too-long rejection the claim predicts for every 25–35-character
string whose byte length exceeds 35. -/
theorem C8_counterexample :
    (List.replicate 25 'é').length = 25 ∧ 35 < utf8Len (List.replicate 25 'é') ∧
    (List.replicate 25 'é').head? = some 'é' ∧ 'é' ≠ 'r' ∧
    account_validate (List.replicate 25 'é') = Except.error AccErr.notR ∧
    AccErr.notR ≠ AccErr.tooLong :=
  ⟨by decide, by decide, rfl, by decide, rfl, by decide⟩

/-- C8 witness: a 13-character, 25-byte string starting with `'r'` validates
even though it has fewer than 25 characters. -/
theorem C8_byte_length_witness :
    account_validate ('r' :: List.replicate 12 'é') = Except.ok ('r' :: List.replicate 12 'é') ∧
    ('r' :: List.replicate 12 'é').length < 25 :=
  ⟨C8_byte_length.1 ('r' :: List.replicate 12 'é') (by decide) (by decide) rfl, by decide⟩

/-- C3 (confirmed): `Balance` decoding tests the scalar (`XRP`) variant
first: a string scalar carrying a decimal decodes to `XRP`, as does a number
scalar; an object with well-typed `currency`, `issuer` and `value` fields
decodes to the issued-currency variant; and an object missing any one of the
three required keys is a decode failure — never a fallback to the scalar
variant. -/
theorem C3_balance_resolution :
    (∀ (s : Chars) (d : BigDec), parseBigDec s = some d →
      decodeBalance (Json.str s) = some (Balance.XRP d)) ∧
    (∀ n : Int, decodeBalance (Json.num n) = some (Balance.XRP ⟨n, 0⟩)) ∧
    (∀ (fs : List (Chars × Json)) (c i : Chars) (jv : Json) (v : BigDec),
      lookupField fs kCurrency = some (Json.str c) →
      lookupField fs kIssuer = some (Json.str i) →
      lookupField fs kValue = some jv → decodeBigDecJson jv = some v →
      decodeBalance (Json.obj fs) = some (Balance.Other c i v)) ∧
    (∀ fs : List (Chars × Json),
      (lookupField fs kCurrency = none ∨ lookupField fs kIssuer = none ∨
        lookupField fs kValue = none) →
      decodeBalance (Json.obj fs) = none) := by
  refine ⟨?_, ?_, ?_, ?_⟩
  · intro s d h
    simp [decodeBalance, decodeBigDecJson, h]
  · intro n
    rfl
  · intro fs c i jv v h1 h2 h3 h4
    show decodeBalanceObj fs = _
    simp [decodeBalanceObj, h1, h2, h3, h4]
  · intro fs h
    show decodeBalanceObj fs = none
    rcases h with h | h | h
    · simp [decodeBalanceObj, h]
    · cases h1 : lookupField fs kCurrency with
      | none => simp [decodeBalanceObj, h1]
      | some j1 => cases j1 <;> simp [decodeBalanceObj, h1, h]
    · cases h1 : lookupField fs kCurrency with
      | none => simp [decodeBalanceObj, h1]
      | some j1 =>
        cases j1 <;> try simp [decodeBalanceObj, h1]
        case str c =>
          cases h2 : lookupField fs kIssuer with
          | none => simp [decodeBalanceObj, h1, h2]
          | some j2 => cases j2 <;> simp [decodeBalanceObj, h1, h2, h]

/-- C3 witness: a decimal string scalar, a number scalar, a full
issued-currency object, and an object missing `issuer` (which fails rather
than falling back to the scalar variant). -/
theorem C3_balance_resolution_witness :
    decodeBalance (Json.str ("12.5").data) = some (Balance.XRP ⟨125, 1⟩) ∧
    decodeBalance (Json.num 42) = some (Balance.XRP ⟨42, 0⟩) ∧
    decodeBalance (Json.obj sampleBalanceFields) =
      some (Balance.Other (("USD").data) (("rI").data) ⟨307, 2⟩) ∧
    decodeBalance (Json.obj [(kCurrency, Json.str ("USD").data),
      (kValue, Json.str ("1").data)]) = none :=
  ⟨C3_balance_resolution.1 (("12.5").data) ⟨125, 1⟩ rfl,
   C3_balance_resolution.2.1 42,
   C3_balance_resolution.2.2.1 sampleBalanceFields (("USD").data) (("rI").data)
     (Json.str ("3.07").data) ⟨307, 2⟩ rfl rfl rfl rfl,
   C3_balance_resolution.2.2.2 _ (Or.inr (Or.inl rfl))⟩

/-- C4 (confirmed): `LedgerIndex` decoding tries `Current`, then `Number`,
then `StrValue`, accepting the first structural match: whenever
`ledger_current_index` is present and decimal-decodable the result is
`Current` (even if `ledger_index` is also present — first match wins);
otherwise an integer `ledger_index` gives `Number`; otherwise a string
`ledger_index` gives `StrValue`; and a payload with neither field fails. -/
theorem C4_ledgerindex_resolution :
    (∀ (fs : List (Chars × Json)) (jv : Json) (d : BigDec),
      lookupField fs kLCI = some jv → decodeBigDecJson jv = some d →
      decodeLedgerIndexFields fs = some (LedgerIndex.Current d)) ∧
    (∀ (fs : List (Chars × Json)) (n : Int),
      (lookupField fs kLCI).bind decodeBigDecJson = none →
      lookupField fs kLI = some (Json.num n) →
      decodeLedgerIndexFields fs = some (LedgerIndex.Number n)) ∧
    (∀ (fs : List (Chars × Json)) (s : Chars),
      (lookupField fs kLCI).bind decodeBigDecJson = none →
      lookupField fs kLI = some (Json.str s) →
      decodeLedgerIndexFields fs = some (LedgerIndex.StrValue s)) ∧
    (∀ fs : List (Chars × Json),
      lookupField fs kLCI = none → lookupField fs kLI = none →
      decodeLedgerIndexFields fs = none) := by
  refine ⟨?_, ?_, ?_, ?_⟩
  · intro fs jv d h1 h2
    simp [decodeLedgerIndexFields, h1, h2]
  · intro fs n h1 h2
    simp [decodeLedgerIndexFields, h1, h2]
  · intro fs s h1 h2
    simp [decodeLedgerIndexFields, h1, h2]
  · intro fs h1 h2
    simp [decodeLedgerIndexFields, h1, h2]

/-- C4 witness: the four shapes, including a payload carrying both fields
(resolved to `Current` by the variant order). -/
theorem C4_ledgerindex_resolution_witness :
    decodeLedgerIndexFields [(kLCI, Json.num 9)] = some (LedgerIndex.Current ⟨9, 0⟩) ∧
    decodeLedgerIndexFields [(kLCI, Json.num 9), (kLI, Json.num 4)] =
      some (LedgerIndex.Current ⟨9, 0⟩) ∧
    decodeLedgerIndexFields [(kLI, Json.num 4)] = some (LedgerIndex.Number 4) ∧
    decodeLedgerIndexFields [(kLI, Json.str ("validated").data)] =
      some (LedgerIndex.StrValue (("validated").data)) ∧
    decodeLedgerIndexFields [(kStatus, Json.str ("success").data)] = none :=
  ⟨C4_ledgerindex_resolution.1 _ (Json.num 9) ⟨9, 0⟩ rfl rfl,
   C4_ledgerindex_resolution.1 _ (Json.num 9) ⟨9, 0⟩ rfl rfl,
   C4_ledgerindex_resolution.2.1 _ 4 rfl rfl,
   C4_ledgerindex_resolution.2.2.1 _ (("validated").data) rfl rfl,
   C4_ledgerindex_resolution.2.2.2 _ rfl rfl⟩

/-- C5 (confirmed): a `Balance` decoded to the native-unit variant
re-encodes as a string scalar that is decimal-equal both to the decoded
value and to the original scalar; a `Balance` decoded to the issued-currency
variant re-encodes as an object preserving `currency` and `issuer` exactly,
with a `value` decimal-equal to the original `value` field. -/
theorem C5_balance_roundtrip :
    (∀ (j : Json) (d : BigDec), decodeBalance j = some (Balance.XRP d) →
      encodeBalance (Balance.XRP d) = Json.str (printBigDec d) ∧
      scalarDecVal (Json.str (printBigDec d)) = some (toRat d) ∧
      scalarDecVal j = some (toRat d)) ∧
    (∀ (fs : List (Chars × Json)) (c i : Chars) (v : BigDec),
      decodeBalance (Json.obj fs) = some (Balance.Other c i v) →
      encodeBalance (Balance.Other c i v) =
        Json.obj [(kCurrency, Json.str c), (kIssuer, Json.str i),
          (kValue, Json.str (printBigDec v))] ∧
      lookupField fs kCurrency = some (Json.str c) ∧
      lookupField fs kIssuer = some (Json.str i) ∧
      (∃ jv, lookupField fs kValue = some jv ∧ scalarDecVal jv = some (toRat v)) ∧
      scalarDecVal (Json.str (printBigDec v)) = some (toRat v)) := by
  constructor
  · intro j d h
    have hd := decodeBalance_XRP_inv j d h
    exact ⟨rfl, scalarDecVal_print d, scalarDecVal_of_decode j d hd⟩
  · intro fs c i v h
    obtain ⟨h1, h2, jv, h3, h4⟩ := decodeBalance_Other_inv fs c i v h
    exact ⟨rfl, h1, h2, ⟨jv, h3, scalarDecVal_of_decode jv v h4⟩, scalarDecVal_print v⟩

/-- C5 witness: the scalar `"12.5"` and the object with value `"3.07"`. -/
theorem C5_balance_roundtrip_witness :
    scalarDecVal (Json.str (printBigDec ⟨125, 1⟩)) = some (toRat ⟨125, 1⟩) ∧
    scalarDecVal (Json.str ("12.5").data) = some (toRat ⟨125, 1⟩) ∧
    encodeBalance (Balance.Other (("USD").data) (("rI").data) ⟨307, 2⟩) =
      Json.obj [(kCurrency, Json.str (("USD").data)), (kIssuer, Json.str (("rI").data)),
        (kValue, Json.str (printBigDec ⟨307, 2⟩))] :=
  ⟨(C5_balance_roundtrip.1 (Json.str ("12.5").data) ⟨125, 1⟩ rfl).2.1,
   (C5_balance_roundtrip.1 (Json.str ("12.5").data) ⟨125, 1⟩ rfl).2.2,
   (C5_balance_roundtrip.2 sampleBalanceFields (("USD").data) (("rI").data) ⟨307, 2⟩ rfl).1⟩

/-- C6 (confirmed): an `account_info` payload whose other fields are
well-formed and which carries no `queue_data` key decodes with the
queue-summary field absent; and each of the six `LaziedQueueData` fields is
individually optional — any object whose present queue fields are well-typed
decodes, whatever subset of the six keys it omits. -/
theorem C6_queue_optional :
    (∀ (fs : List (Chars × Json)) (ad : AccountData) (st : Chars)
        (vd : Option Bool) (li : LedgerIndex),
      (lookupField fs kAccountData).bind decodeAccountData = some ad →
      lookupField fs kQueueData = none →
      lookupField fs kStatus = some (Json.str st) →
      optField fs kValidated asBool = some vd →
      decodeLedgerIndexFields (restFields fs) = some li →
      decodeAccountInfo (Json.obj fs) = some ⟨ad, none, st, vd, li⟩) ∧
    (∀ (fs : List (Chars × Json)) (a : Option Bool) (h l m : Option BigDec)
        (t : Option (List QueuedTransaction)) (c : Option BigDec),
      optField fs kAuthChangeQueued asBool = some a →
      optField fs kHighestSequence decodeBigDecJson = some h →
      optField fs kLowestSequence decodeBigDecJson = some l →
      optField fs kMaxSpendDropsTotal decodeBigDecJson = some m →
      optField fs kTransactions decodeQTList = some t →
      optField fs kTxnCount decodeBigDecJson = some c →
      decodeLaziedQueueData (Json.obj fs) = some ⟨a, h, l, m, t, c⟩) := by
  constructor
  · intro fs ad st vd li h1 h2 h3 h4 h5
    have hq : optField fs kQueueData decodeLaziedQueueData = some none := by
      simp [optField, h2]
    simp [decodeAccountInfo, h1, h3, h4, h5, hq, asStr]
  · intro fs a h l m t c h1 h2 h3 h4 h5 h6
    simp [decodeLaziedQueueData, h1, h2, h3, h4, h5, h6]

/-- C6 witness: a queue-less `account_info` payload decodes with
`queue_data = none`, and a queue object carrying only two of the six fields
decodes. -/
theorem C6_queue_optional_witness :
    decodeAccountInfo (Json.obj sampleAccountInfoFields) =
      some ⟨sampleAccountData, none, ("success").data, none, LedgerIndex.Current ⟨7, 0⟩⟩ ∧
    decodeLaziedQueueData (Json.obj sampleQueueFields) =
      some ⟨some false, none, none, none, none, some ⟨2, 0⟩⟩ :=
  ⟨C6_queue_optional.1 sampleAccountInfoFields sampleAccountData (("success").data) none
      (LedgerIndex.Current ⟨7, 0⟩) rfl rfl rfl rfl rfl,
   C6_queue_optional.2 sampleQueueFields (some false) none none none none (some ⟨2, 0⟩)
      rfl rfl rfl rfl rfl rfl⟩

/-- C7 (confirmed; the dispatcher is modelled from the spec, §4.3): on a
`result` payload the call either returns the fully decoded response or the
`Decode` error — in particular a payload missing the required
`account_data` field yields `Decode`, never a partially populated value. -/
theorem C7_decode_total :
    (∀ (j : Json) (r : AccountInfo), decodeAccountInfo j = some r →
      callRpc decodeAccountInfo (RpcReply.resultPayload j) = Except.ok r) ∧
    (∀ j : Json, decodeAccountInfo j = none →
      callRpc decodeAccountInfo (RpcReply.resultPayload j) =
        Except.error RpcError.Decode) ∧
    (∀ fs : List (Chars × Json), lookupField fs kAccountData = none →
      callRpc decodeAccountInfo (RpcReply.resultPayload (Json.obj fs)) =
        Except.error RpcError.Decode) := by
  refine ⟨?_, ?_, ?_⟩
  · intro j r h
    simp [callRpc, h]
  · intro j h
    simp [callRpc, h]
  · intro fs h
    have hnone : decodeAccountInfo (Json.obj fs) = none := by
      simp [decodeAccountInfo, h]
    simp [callRpc, hnone]

/-- C7 witness: a complete payload decodes to `ok`, a payload missing
`account_data` yields the `Decode` error. -/
theorem C7_decode_total_witness :
    callRpc decodeAccountInfo (RpcReply.resultPayload (Json.obj sampleAccountInfoFields)) =
      Except.ok ⟨sampleAccountData, none, ("success").data, none,
        LedgerIndex.Current ⟨7, 0⟩⟩ ∧
    callRpc decodeAccountInfo (RpcReply.resultPayload
      (Json.obj [(kStatus, Json.str ("success").data)])) =
      Except.error RpcError.Decode :=
  ⟨C7_decode_total.1 (Json.obj sampleAccountInfoFields) _ rfl,
   C7_decode_total.2.2 [(kStatus, Json.str ("success").data)] rfl⟩

/-- C9 (confirmed): the flattened ledger-index group of `AccountInfo` is
required — a payload containing neither `ledger_current_index` nor
`ledger_index` fails to decode, whatever else it contains; equivalently a
successful decode implies one of the two fields is present. -/
theorem C9_flattened_required :
    (∀ fs : List (Chars × Json),
      lookupField fs kLCI = none → lookupField fs kLI = none →
      decodeAccountInfo (Json.obj fs) = none) ∧
    (∀ (fs : List (Chars × Json)) (r : AccountInfo),
      decodeAccountInfo (Json.obj fs) = some r →
      ¬(lookupField fs kLCI = none ∧ lookupField fs kLI = none)) := by
  have key : ∀ fs : List (Chars × Json),
      lookupField fs kLCI = none → lookupField fs kLI = none →
      decodeAccountInfo (Json.obj fs) = none := by
    intro fs h1 h2
    have h1' := lookupField_restFields_none fs kLCI h1
    have h2' := lookupField_restFields_none fs kLI h2
    have hli : decodeLedgerIndexFields (restFields fs) = none := by
      simp [decodeLedgerIndexFields, h1', h2']
    simp [decodeAccountInfo, hli, bind_const_none]
  refine ⟨key, ?_⟩
  rintro fs r hr ⟨h1, h2⟩
  rw [key fs h1 h2] at hr
  cases hr

/-- C9 witness: a payload with all required fields except any ledger-index
field fails to decode. -/
theorem C9_flattened_required_witness :
    decodeAccountInfo (Json.obj sampleNoLedgerFields) = none :=
  C9_flattened_required.1 sampleNoLedgerFields rfl rfl

/-- C10 (confirmed): `AccountData` decodes only when its `LedgerEntryType`
field is exactly the string `"AccountRoot"` — the single-variant enum
rejects every other string. -/
theorem C10_ledger_entry_type :
    (∀ (fs : List (Chars × Json)) (x : AccountData),
      decodeAccountData (Json.obj fs) = some x →
      lookupField fs kLET = some (Json.str ("AccountRoot").data)) ∧
    (∀ s : Chars, s ≠ ("AccountRoot").data →
      decodeLedgerEntryType (Json.str s) = none) := by
  constructor
  · intro fs x h
    simp only [decodeAccountData, Option.bind_eq_some] at h
    obtain ⟨a, -, h⟩ := h
    obtain ⟨b, -, h⟩ := h
    obtain ⟨fl, -, h⟩ := h
    obtain ⟨le, hle, -⟩ := h
    obtain ⟨jv, hjv, hdec⟩ := hle
    rw [decodeLET_inv jv le hdec] at hjv
    exact hjv
  · intro s hs
    simp [decodeLedgerEntryType, hs]

/-- C10 witness: the sample account data decodes (so its `LedgerEntryType`
field is the `"AccountRoot"` string), and another ledger-entry-type string
is rejected. -/
theorem C10_ledger_entry_type_witness :
    lookupField sampleADFields kLET = some (Json.str ("AccountRoot").data) ∧
    decodeLedgerEntryType (Json.str ("Directory").data) = none :=
  ⟨C10_ledger_entry_type.1 sampleADFields sampleAccountData rfl,
   C10_ledger_entry_type.2 (("Directory").data) (by decide)⟩
